import Mathlib

/-!
# Verification of the GHCN station-statistics pipeline

Shallow embedding of the core statistics pipeline of the repository
(`data_quality.py`, `stats_processor.py`) and proofs of the specified
properties.

Conventions of the embedding:
* polars DataFrames become Lean lists of rows (structures);
* nullable values become `Option ℚ`; machine floats are modelled by exact
  rationals (`ℚ`);
* aggregations that polars performs while skipping nulls are modelled by
  first dropping the `none` entries (`List.filterMap id`);
* exceptions become `Option`/`none` results.
-/

/- Batteries marks the arithmetic on `Rat` `[irreducible]`, which blocks
evaluation of concrete instances inside `decide`/`rfl` proofs; restore the
default transparency locally so concrete runs of the embedded pipeline can
be evaluated. -/
attribute [local semireducible] Rat.mul Rat.inv Rat.add Rat.sub Rat.ofScientific

/-- A calendar date as stored in the observation tables. -/
structure Date where
  year : ℕ
  month : ℕ
  day : ℕ
deriving DecidableEq, Repr

/-- One observation row of a single element's table, already filtered to one
station: a date plus a nullable `DATA_VALUE`. -/
structure Obs where
  date : Date
  value : Option ℚ
deriving DecidableEq, Repr

/-- Embedding of `check_data_quality` (`data_quality.py`, lines 18-39):
filter the rows to `year >= start_year`, count the non-null values and all
rows, form the completeness ratio (`0` when there are no rows), and compare
it against the `0.7` threshold. -/
def check_data_quality (rows : List Obs) (start_year : ℕ) : Bool × ℚ :=
  let rs := rows.filter (fun r => decide (start_year ≤ r.date.year))
  let valid_count := (rs.filter (fun r => r.value.isSome)).length
  let total_count := rs.length
  let completeness_ratio : ℚ :=
    if 0 < total_count then (valid_count : ℚ) / (total_count : ℚ) else 0
  (decide ((7 : ℚ)/10 ≤ completeness_ratio), completeness_ratio)

/-- Number of observation rows dated in or after the cutoff year. -/
def postCutoffTotal (rows : List Obs) (cutoff : ℕ) : ℕ :=
  (rows.filter (fun r => decide (cutoff ≤ r.date.year))).length

/-- Number of non-null observation rows dated in or after the cutoff year. -/
def postCutoffValid (rows : List Obs) (cutoff : ℕ) : ℕ :=
  (rows.filter (fun r => r.value.isSome && decide (cutoff ≤ r.date.year))).length

/-! ## Generic dataframe operations

`groupBy` models polars `group_by(...).agg(...)`: one output row per
distinct key, carrying the list of input rows with that key.  polars leaves
the order of the groups unspecified and every use in the source is followed
by an explicit `sort`, so the embedding fixes an arbitrary canonical order
(the one of `List.dedup`).  `withIdx` models `with_row_index`/
`with_row_count` with an offset. -/

/-- polars `group_by`: one pair per distinct key of `xs`. -/
def groupBy {α κ : Type} [DecidableEq κ] (key : α → κ) (xs : List α) :
    List (κ × List α) :=
  ((xs.map key).dedup).map (fun k => (k, xs.filter (fun x => decide (key x = k))))

/-- polars `with_row_index` with a start offset. -/
def withIdx {α : Type} (n : ℕ) : List α → List (ℕ × α)
  | [] => []
  | a :: t => (n, a) :: withIdx (n + 1) t

/-- Ascending lexicographic order on pairs, the order of the polars
`sort([c1, c2])` calls of the source. -/
def keyLe (a b : ℕ × ℕ) : Prop :=
  a.1 < b.1 ∨ (a.1 = b.1 ∧ a.2 ≤ b.2)

/-- Strict ascending lexicographic order on pairs. -/
def keyLt (a b : ℕ × ℕ) : Prop :=
  a.1 < b.1 ∨ (a.1 = b.1 ∧ a.2 < b.2)

instance : DecidableRel keyLe := fun a b =>
  decidable_of_iff (a.1 < b.1 ∨ (a.1 = b.1 ∧ a.2 ≤ b.2)) Iff.rfl

instance : DecidableRel keyLt := fun a b =>
  decidable_of_iff (a.1 < b.1 ∨ (a.1 = b.1 ∧ a.2 < b.2)) Iff.rfl

instance : IsTotal (ℕ × ℕ) keyLe :=
  ⟨by intro a b; unfold keyLe; omega⟩

instance : IsTrans (ℕ × ℕ) keyLe :=
  ⟨by intro a b c; unfold keyLe; omega⟩

instance : IsAntisymm (ℕ × ℕ) keyLe :=
  ⟨by
    intro a b h1 h2
    have h : a.1 = b.1 ∧ a.2 = b.2 := by unfold keyLe at h1 h2; omega
    exact Prod.ext h.1 h.2⟩

/-! ## Per-column aggregations

polars aggregations skip null entries, so the embeddings drop the `none`
entries first.  `sum` of an empty/all-null column is `0` in polars;
`mean`/`min`/`max`/`quantile` of an empty/all-null column are null. -/

/-- polars `mean` over a non-nullable column. -/
def meanQ (xs : List ℚ) : Option ℚ :=
  match xs with
  | [] => none
  | _ :: _ => some (xs.sum / (xs.length : ℚ))

/-- polars `mean` over a nullable column (nulls skipped). -/
def meanOpt (xs : List (Option ℚ)) : Option ℚ :=
  meanQ (xs.filterMap id)

/-- polars `min` over a nullable column (nulls skipped). -/
def minOptQ (xs : List (Option ℚ)) : Option ℚ :=
  (xs.filterMap id).min?

/-- polars `max` over a nullable column (nulls skipped). -/
def maxOptQ (xs : List (Option ℚ)) : Option ℚ :=
  (xs.filterMap id).max?

/-- Ascending sort of a value column, used inside the quantile estimators. -/
def sortedVals (xs : List ℚ) : List ℚ :=
  List.insertionSort (fun a b : ℚ => a ≤ b) xs

/-- polars `quantile(q)` with its default interpolation strategy
`"nearest"` (the source never passes an `interpolation` argument): the
element of the sorted column at index `round((n-1)*q)`, clamped to the
valid range; Rust `f64::round` rounds half away from zero, which on the
nonnegative indices involved is `round` (half up). -/
def quantileNearest (q : ℚ) (xs : List ℚ) : Option ℚ :=
  match xs with
  | [] => none
  | _ :: _ =>
    let fidx : ℚ := ((xs.length - 1 : ℕ) : ℚ) * q
    some ((sortedVals xs).getD (min (round fidx).toNat (xs.length - 1)) 0)

/-- Modelled from the spec: the linear-interpolation quantile estimator the
spec prescribes for P10/P90 ("Percentiles (P10/P90) use linear-interpolation
quantile estimation").  With `h = (n-1)*q`, interpolate between the sorted
values at `⌊h⌋` and `⌊h⌋+1`. -/
def quantileLinearSpec (q : ℚ) (xs : List ℚ) : Option ℚ :=
  match xs with
  | [] => none
  | _ :: _ =>
    let s := sortedVals xs
    let fidx : ℚ := ((xs.length - 1 : ℕ) : ℚ) * q
    let lo : ℕ := (Int.floor fidx).toNat
    let lov := s.getD lo 0
    let hiv := s.getD (min (lo + 1) (xs.length - 1)) 0
    some (lov + (fidx - Int.floor fidx) * (hiv - lov))

/-- Gregorian leap-year rule, as used by polars `dt.days_in_month`. -/
def isLeapYear (y : ℕ) : Bool :=
  y % 4 == 0 && (y % 100 != 0 || y % 400 == 0)

/-- polars `dt.days_in_month` (defined on the valid months 1..12; real
dates never carry another month number). -/
def daysInMonth (y m : ℕ) : ℕ :=
  if m = 2 then (if isLeapYear y then 29 else 28)
  else if m = 4 ∨ m = 6 ∨ m = 9 ∨ m = 11 then 30
  else 31

/-- A stream with 7 valid rows among 10 post-cutoff rows. -/
def rows7of10 : List Obs :=
  (List.range 7).map (fun i => ⟨⟨1980, 1, i + 1⟩, some 5⟩)
    ++ (List.range 3).map (fun i => ⟨⟨1980, 1, i + 8⟩, none⟩)

/-- A stream with 6 valid rows among 10 post-cutoff rows. -/
def rows6of10 : List Obs :=
  (List.range 6).map (fun i => ⟨⟨1980, 1, i + 1⟩, some 5⟩)
    ++ (List.range 4).map (fun i => ⟨⟨1980, 1, i + 7⟩, none⟩)

/-! ## Key functions of the grouping stages -/

/-- The date filter both aggregators start with: `DATE.dt.year() >= 1970`. -/
def postRows (rows : List Obs) : List Obs :=
  rows.filter (fun r => decide (1970 ≤ r.date.year))

/-- The Stage-1 grouping key of the daily aggregator:
`(YEAR, MONTH, DAY_OF_MONTH)`. -/
def dailyKey (r : Obs) : ℕ × ℕ × ℕ :=
  (r.date.year, r.date.month, r.date.day)

/-- The `(MONTH, DAY_OF_MONTH)` calendar position of an observation. -/
def obsMD (r : Obs) : ℕ × ℕ :=
  (r.date.month, r.date.day)

/-- The Stage-1 grouping key of the monthly aggregator: `(YEAR, MONTH)`. -/
def monthKey (r : Obs) : ℕ × ℕ :=
  (r.date.year, r.date.month)

/-! ## Daily aggregator (`calculate_daily_statistics`, lines 10-48) -/

/-- A Stage-1 row of the daily aggregator: the `group_by(["YEAR", "MONTH",
"DAY_OF_MONTH"]).agg(...)` output (`ANNUAL_*` columns). -/
structure AnnualDaily where
  year : ℕ
  month : ℕ
  dom : ℕ
  p10 : Option ℚ
  p90 : Option ℚ
  mn : Option ℚ
  mx : Option ℚ
  sm : ℚ
deriving DecidableEq, Repr

/-- A Stage-2 row of the daily aggregator, before the `DAY` index is
assigned: the `group_by(["MONTH", "DAY_OF_MONTH"]).agg(...)` output. -/
structure DailyClimRow where
  month : ℕ
  dom : ℕ
  p10 : Option ℚ
  p90 : Option ℚ
  mn : Option ℚ
  mx : Option ℚ
  sm : Option ℚ
deriving DecidableEq, Repr

/-- A row of the final daily climatology table, with the sequential `DAY`
index assigned after the calendar sort. -/
structure DailyStatRow where
  day : ℕ
  month : ℕ
  dom : ℕ
  p10 : Option ℚ
  p90 : Option ℚ
  mn : Option ℚ
  mx : Option ℚ
  sm : Option ℚ
deriving DecidableEq, Repr

/-- Sort order of the final `.sort(["MONTH", "DAY_OF_MONTH"])`. -/
def dailyRowLe (a b : DailyClimRow) : Prop :=
  keyLe (a.month, a.dom) (b.month, b.dom)

instance : DecidableRel dailyRowLe := fun a b =>
  decidable_of_iff (keyLe (a.month, a.dom) (b.month, b.dom)) Iff.rfl

instance : IsTotal DailyClimRow dailyRowLe :=
  ⟨fun _ _ => IsTotal.total (r := keyLe) _ _⟩

instance : IsTrans DailyClimRow dailyRowLe :=
  ⟨fun _ _ _ hab hbc => IsTrans.trans (r := keyLe) _ _ _ hab hbc⟩

/-- The `agg` of Stage 1 of the daily aggregator, applied to one
`(YEAR, MONTH, DAY_OF_MONTH)` group.  polars aggregations skip nulls;
`sum` of an all-null cell is `0`. -/
def mkAnnualDaily (kg : (ℕ × ℕ × ℕ) × List Obs) : AnnualDaily :=
  let vals := kg.2.filterMap (fun r => r.value)
  { year := kg.1.1, month := kg.1.2.1, dom := kg.1.2.2,
    p10 := quantileNearest (1/10) vals,
    p90 := quantileNearest (9/10) vals,
    mn := vals.min?, mx := vals.max?, sm := vals.sum }

/-- Stage 1 of `calculate_daily_statistics`: filter to `year >= 1970`, group
by `(YEAR, MONTH, DAY_OF_MONTH)` and aggregate the value column. -/
def dailyStage1 (rows : List Obs) : List AnnualDaily :=
  (groupBy dailyKey (postRows rows)).map mkAnnualDaily

/-- The `(MONTH, DAY_OF_MONTH)` key of a Stage-1 row, the Stage-2 grouping
key. -/
def annualMD (a : AnnualDaily) : ℕ × ℕ :=
  (a.month, a.dom)

/-- The `agg` of Stage 2 of the daily aggregator, applied to one
`(MONTH, DAY_OF_MONTH)` group of Stage-1 rows: `mean` of the per-year
p10/p90/sum, `min`/`max` of the per-year min/max. -/
def mkDailyClim (kg : (ℕ × ℕ) × List AnnualDaily) : DailyClimRow :=
  { month := kg.1.1, dom := kg.1.2,
    p10 := meanOpt (kg.2.map (fun a => a.p10)),
    p90 := meanOpt (kg.2.map (fun a => a.p90)),
    mn := minOptQ (kg.2.map (fun a => a.mn)),
    mx := maxOptQ (kg.2.map (fun a => a.mx)),
    sm := meanQ (kg.2.map (fun a => a.sm)) }

/-- Stage 2 of `calculate_daily_statistics`: group the Stage-1 rows by
`(MONTH, DAY_OF_MONTH)` and aggregate across years. -/
def dailyStage2 (annual : List AnnualDaily) : List DailyClimRow :=
  (groupBy annualMD annual).map mkDailyClim

/-- The final `DAY` assignment of the daily aggregator, applied to one
indexed sorted Stage-2 row. -/
def mkDailyStat (ir : ℕ × DailyClimRow) : DailyStatRow :=
  { day := ir.1, month := ir.2.month, dom := ir.2.dom,
    p10 := ir.2.p10, p90 := ir.2.p90,
    mn := ir.2.mn, mx := ir.2.mx, sm := ir.2.sm }

/-- Embedding of `calculate_daily_statistics` (`stats_processor.py`, lines
10-48): the two grouping stages, the calendar sort, and the sequential
`DAY` index starting at 1. -/
def calculate_daily_statistics (rows : List Obs) : List DailyStatRow :=
  (withIdx 1 (List.insertionSort dailyRowLe (dailyStage2 (dailyStage1 rows)))).map
    mkDailyStat

/-! ## Monthly aggregator (`calculate_monthly_statistics`, lines 51-165) -/

/-- A Stage-1 row of the monthly aggregator (`monthly_summary` before the
completeness filter): the `group_by(["YEAR", "MONTH"]).agg(...)` output.
The statistic columns are computed over the non-null values only
(`filter(pl.col("DATA_VALUE").is_not_null())` in the source); `sum` of an
empty selection is `0`. -/
structure MonthCell where
  year : ℕ
  month : ℕ
  validCount : ℕ
  entryCount : ℕ
  daysIM : ℕ
  p10 : Option ℚ
  p90 : Option ℚ
  mn : Option ℚ
  mx : Option ℚ
  sm : ℚ
deriving DecidableEq, Repr

/-- A row of the monthly history table (`monthly_history`): the surviving
Stage-1 rows with `PERIOD_START` attached and the bookkeeping columns
dropped by the final `select`. -/
structure HistoryRow where
  year : ℕ
  month : ℕ
  periodStart : Date
  p10 : Option ℚ
  p90 : Option ℚ
  mn : Option ℚ
  mx : Option ℚ
  sm : ℚ
  entryCount : ℕ
deriving DecidableEq, Repr

/-- A row of the monthly climatology table (`monthly_climatology`). -/
structure MonthlyClimRow where
  month : ℕ
  p10 : Option ℚ
  p90 : Option ℚ
  mn : Option ℚ
  mx : Option ℚ
  sm : Option ℚ
deriving DecidableEq, Repr

/-- Sort order of `.sort(["YEAR", "MONTH"])` on Stage-1 rows. -/
def monthCellLe (a b : MonthCell) : Prop :=
  keyLe (a.year, a.month) (b.year, b.month)

instance : DecidableRel monthCellLe := fun a b =>
  decidable_of_iff (keyLe (a.year, a.month) (b.year, b.month)) Iff.rfl

instance : IsTotal MonthCell monthCellLe :=
  ⟨fun _ _ => IsTotal.total (r := keyLe) _ _⟩

instance : IsTrans MonthCell monthCellLe :=
  ⟨fun _ _ _ hab hbc => IsTrans.trans (r := keyLe) _ _ _ hab hbc⟩

/-- Sort order of `.sort("MONTH")` on climatology rows. -/
def climRowLe (a b : MonthlyClimRow) : Prop :=
  a.month ≤ b.month

instance : DecidableRel climRowLe := fun a b =>
  decidable_of_iff (a.month ≤ b.month) Iff.rfl

instance : IsTotal MonthlyClimRow climRowLe :=
  ⟨fun a b => Nat.le_total a.month b.month⟩

instance : IsTrans MonthlyClimRow climRowLe :=
  ⟨fun _ _ _ hab hbc => Nat.le_trans hab hbc⟩

/-- The `agg` of Stage 1 of the monthly aggregator, applied to one
`(YEAR, MONTH)` group: count valid and total entries, record the calendar
length of the month, and aggregate the non-null values. -/
def mkMonthCell (kg : (ℕ × ℕ) × List Obs) : MonthCell :=
  let vals := kg.2.filterMap (fun r => r.value)
  { year := kg.1.1, month := kg.1.2,
    validCount := vals.length,
    entryCount := kg.2.length,
    daysIM := (kg.2.map (fun r => daysInMonth r.date.year r.date.month)).headD 0,
    p10 := quantileNearest (1/10) vals,
    p90 := quantileNearest (9/10) vals,
    mn := vals.min?, mx := vals.max?, sm := vals.sum }

/-- Stage 1 of `calculate_monthly_statistics`: filter to `year >= 1970`,
group by `(YEAR, MONTH)` and aggregate. -/
def monthlyStage1 (rows : List Obs) : List MonthCell :=
  (groupBy monthKey (postRows rows)).map mkMonthCell

/-- The completeness filter of the monthly aggregator:
`VALID_COUNT / DAYS_IN_MONTH >= 0.7` (the float arithmetic of the source is
modelled exactly over `ℚ`). -/
def cellKept (c : MonthCell) : Bool :=
  decide ((7 : ℚ)/10 ≤ (c.validCount : ℚ) / (c.daysIM : ℚ))

/-- The projection of a surviving Stage-1 row onto the history-table
columns, `PERIOD_START` being the first day of the month. -/
def toHistoryRow (c : MonthCell) : HistoryRow :=
  { year := c.year, month := c.month,
    periodStart := ⟨c.year, c.month, 1⟩,
    p10 := c.p10, p90 := c.p90, mn := c.mn, mx := c.mx, sm := c.sm,
    entryCount := c.entryCount }

/-- The month of a history row, the Stage-2 grouping key. -/
def histMonth (h : HistoryRow) : ℕ :=
  h.month

/-- The `agg` of Stage 2 of the monthly aggregator, applied to one
month's group of history rows. -/
def mkMonthlyClim (kg : ℕ × List HistoryRow) : MonthlyClimRow :=
  { month := kg.1,
    p10 := meanOpt (kg.2.map (fun h => h.p10)),
    p90 := meanOpt (kg.2.map (fun h => h.p90)),
    mn := minOptQ (kg.2.map (fun h => h.mn)),
    mx := maxOptQ (kg.2.map (fun h => h.mx)),
    sm := meanQ (kg.2.map (fun h => h.sm)) }

/-- The history table: the surviving Stage-1 rows with `PERIOD_START`,
sorted by `(YEAR, MONTH)`. -/
def monthlyHistory (rows : List Obs) : List HistoryRow :=
  (List.insertionSort monthCellLe ((monthlyStage1 rows).filter cellKept)).map
    toHistoryRow

/-- Embedding of `calculate_monthly_statistics` (`stats_processor.py`,
lines 51-165): Stage 1, the completeness filter, `PERIOD_START`, the
`(YEAR, MONTH)` sort producing the history table, and the Stage-2 grouping
by month producing the climatology. -/
def calculate_monthly_statistics (rows : List Obs) :
    List MonthlyClimRow × List HistoryRow :=
  (List.insertionSort climRowLe
      ((groupBy histMonth (monthlyHistory rows)).map mkMonthlyClim),
    monthlyHistory rows)

/-! ## Combiner and station processing (`process_station_data`, lines 168-441)

The combiner is modelled as a function of the three per-element statistic
tables (`None` = the element raised during read/aggregation and was skipped
by the `except ... continue`).  The final `select` of the source names the
columns `TMIN_P10`, `TMAX_P90`, `TMIN_MIN`, `TMAX_MAX`, `PRCP_SUM`
unconditionally, so whenever one of the three joins did not happen the
`select` raises `ColumnNotFoundError`, the `except` at the end of
`process_station_data` swallows it, and no table is produced: the
embedding returns `none` in every case where not all three elements are
present (the all-`None` case is the separate "Missing data" branch, which
also produces nothing). -/

/-- polars `.round(2)`, modelled over `ℚ`. -/
def round2 (x : ℚ) : ℚ :=
  ((round (x * 100) : ℤ) : ℚ) / 100

/-- The column list of the final daily `select` (lines 296-307). -/
def daily_select_header : List String :=
  ["DAY", "TMIN_P10", "TMAX_P90", "TMIN_MIN", "TMAX_MAX", "PRCP_SUM",
   "MONTH", "DAY_OF_MONTH"]

/-- The column list of the final monthly `select` (lines 324-333). -/
def monthly_select_header : List String :=
  ["MONTH", "TMIN_P10", "TMAX_P90", "TMIN_MIN", "TMAX_MAX", "PRCP_SUM"]

/-- A row of the combined daily table. -/
structure DailyCombinedRow where
  day : ℕ
  tmin_p10 : Option ℚ
  tmax_p90 : Option ℚ
  tmin_mn : Option ℚ
  tmax_mx : Option ℚ
  prcp_sm : Option ℚ
  month : ℕ
  dom : ℕ
deriving DecidableEq, Repr

/-- A row of the combined monthly table. -/
structure MonthlyCombinedRow where
  month : ℕ
  tmin_p10 : Option ℚ
  tmax_p90 : Option ℚ
  tmin_mn : Option ℚ
  tmax_mx : Option ℚ
  prcp_sm : Option ℚ
deriving DecidableEq, Repr

/-- The combined daily table: the header names of the final `select` plus
the rows. -/
structure DailyCombinedTable where
  header : List String
  rows : List DailyCombinedRow
deriving DecidableEq, Repr

/-- The combined monthly table. -/
structure MonthlyCombinedTable where
  header : List String
  rows : List MonthlyCombinedRow
deriving DecidableEq, Repr

/-- The canonical-calendar key union of the daily combiner (lines 265-276):
vstack the `(MONTH, DAY_OF_MONTH)` keys of the present frames, dedup, sort
ascending. -/
def statMD (r : DailyStatRow) : ℕ × ℕ :=
  (r.month, r.dom)

def dailyKeyUnion (frames : List (List DailyStatRow)) : List (ℕ × ℕ) :=
  List.insertionSort keyLe ((frames.map (fun f => f.map statMD)).flatten).dedup

/-- The canonical month union of the monthly combiner (lines 309-316). -/
def climMonth (r : MonthlyClimRow) : ℕ :=
  r.month

def monthKeyUnion (frames : List (List MonthlyClimRow)) : List ℕ :=
  List.insertionSort (fun a b : ℕ => a ≤ b)
    ((frames.map (fun f => f.map climMonth)).flatten).dedup

/-- Left-join lookup of a daily statistics frame on `(MONTH,
DAY_OF_MONTH)` (the frames have unique keys, so the first match is the
join partner). -/
def findDaily (f : List DailyStatRow) (k : ℕ × ℕ) : Option DailyStatRow :=
  f.find? (fun r => decide (r.month = k.1 ∧ r.dom = k.2))

/-- Left-join lookup of a monthly climatology frame on `MONTH`. -/
def findMonthly (f : List MonthlyClimRow) (m : ℕ) : Option MonthlyClimRow :=
  f.find? (fun r => decide (r.month = m))

/-- The daily combiner (lines 264-307): key union with a fresh `DAY` index,
left joins of the present elements, and the final rounded `select`.  When
any element is absent the `select` raises (its columns do not exist) and
nothing is produced. -/
def combine_daily (tmin tmax prcp : Option (List DailyStatRow)) :
    Option DailyCombinedTable :=
  match tmin, tmax, prcp with
  | some a, some b, some c =>
    some
      { header := daily_select_header,
        rows := (withIdx 1 (dailyKeyUnion [a, b, c])).map
          (fun ik =>
            { day := ik.1, month := ik.2.1, dom := ik.2.2,
              tmin_p10 := ((findDaily a ik.2).bind (fun r => r.p10)).map round2,
              tmax_p90 := ((findDaily b ik.2).bind (fun r => r.p90)).map round2,
              tmin_mn := ((findDaily a ik.2).bind (fun r => r.mn)).map round2,
              tmax_mx := ((findDaily b ik.2).bind (fun r => r.mx)).map round2,
              prcp_sm := ((findDaily c ik.2).bind (fun r => r.sm)).map round2 }) }
  | _, _, _ => none

/-- The monthly combiner (lines 308-333): month union, left joins, final
rounded `select`; as in the daily case, nothing is produced unless all
three elements are present. -/
def combine_monthly (tmin tmax prcp : Option (List MonthlyClimRow)) :
    Option MonthlyCombinedTable :=
  match tmin, tmax, prcp with
  | some a, some b, some c =>
    some
      { header := monthly_select_header,
        rows := (monthKeyUnion [a, b, c]).map
          (fun m =>
            { month := m,
              tmin_p10 := ((findMonthly a m).bind (fun r => r.p10)).map round2,
              tmax_p90 := ((findMonthly b m).bind (fun r => r.p90)).map round2,
              tmin_mn := ((findMonthly a m).bind (fun r => r.mn)).map round2,
              tmax_mx := ((findMonthly b m).bind (fun r => r.mx)).map round2,
              prcp_sm := ((findMonthly c m).bind (fun r => r.sm)).map round2 }) }
  | _, _, _ => none

/-- The two values of the `time_window` argument. -/
inductive TimeWindow where
  | daily
  | monthly
deriving DecidableEq, Repr

/-- The three per-element observation streams of one station; `none` means
reading that element's table raised an exception (handled by
`except ... continue`). -/
structure StationInput where
  tmin : Option (List Obs)
  tmax : Option (List Obs)
  prcp : Option (List Obs)
deriving DecidableEq, Repr

/-- The output file contents of one station run (the combined table; the
JSON summary and the separate monthly-history file carry no claim and are
not modelled). -/
inductive StationOutput where
  | dailyOut : DailyCombinedTable → StationOutput
  | monthlyOut : MonthlyCombinedTable → StationOutput
deriving DecidableEq, Repr

/-- The per-element unit conversion for TMIN/TMAX (line 231). -/
def convertTemps (rows : List Obs) : List Obs :=
  rows.map (fun r => { r with value := r.value.map (fun v => v / 10) })

/-- Whether an element aborts the station: its read succeeded and the
quality gate said `False` (lines 210-217).  An element whose read raised is
skipped, not aborted. -/
def gateFails (o : Option (List Obs)) : Bool :=
  match o with
  | none => false
  | some rows => !(check_data_quality rows 1970).1

/-- Embedding of `process_station_data` (lines 168-441): the quality gate
is evaluated per element before any statistics are computed and aborts the
whole station; otherwise each present element is unit-converted and
aggregated according to `time_window`, and the results are combined.  A
combined table with zero rows is not written (line 433). -/
def process_station_data (tw : TimeWindow) (inp : StationInput) :
    Option StationOutput :=
  if gateFails inp.tmin || gateFails inp.tmax || gateFails inp.prcp then none
  else
    match tw with
    | .daily =>
      match combine_daily
          (inp.tmin.map (fun rows => calculate_daily_statistics (convertTemps rows)))
          (inp.tmax.map (fun rows => calculate_daily_statistics (convertTemps rows)))
          (inp.prcp.map (fun rows => calculate_daily_statistics rows)) with
      | none => none
      | some t => if t.rows.isEmpty then none else some (.dailyOut t)
    | .monthly =>
      match combine_monthly
          (inp.tmin.map (fun rows => (calculate_monthly_statistics (convertTemps rows)).1))
          (inp.tmax.map (fun rows => (calculate_monthly_statistics (convertTemps rows)).1))
          (inp.prcp.map (fun rows => (calculate_monthly_statistics rows).1)) with
      | none => none
      | some t => if t.rows.isEmpty then none else some (.monthlyOut t)


/-! ## Declarative vocabulary for the aggregation claims

These definitions restate, directly as filters over the observation list,
which rows belong to which calendar cell; the characterization lemmas below
prove that the two-stage grouped pipeline computes exactly these. -/

/-- The `(MONTH, DAY_OF_MONTH)` key of a Stage-2 daily row. -/
def climMD (c : DailyClimRow) : ℕ × ℕ :=
  (c.month, c.dom)

/-- The non-null values observed in the daily cell `(y, m, d)`. -/
def dailyCellVals (rows : List Obs) (y m d : ℕ) : List ℚ :=
  ((postRows rows).filter (fun r => decide (dailyKey r = (y, m, d)))).filterMap
    (fun r => r.value)

/-- The Stage-1 row of the daily cell `(y, m, d)`. -/
def dailyCellRow (rows : List Obs) (y m d : ℕ) : AnnualDaily :=
  mkAnnualDaily ((y, m, d),
    (postRows rows).filter (fun r => decide (dailyKey r = (y, m, d))))

/-- The distinct years in which the calendar day `(m, d)` was observed
(in or after 1970). -/
def dailyYears (rows : List Obs) (m d : ℕ) : List ℕ :=
  ((((postRows rows).filter (fun r => decide (obsMD r = (m, d)))).map
    (fun r => r.date.year))).dedup

/-- The distinct observed `(MONTH, DAY_OF_MONTH)` pairs (in or after
1970). -/
def dailyObservedKeys (rows : List Obs) : List (ℕ × ℕ) :=
  ((postRows rows).map obsMD).dedup

/-- The observations of the monthly cell `(y, m)`. -/
def monthCellObs (rows : List Obs) (y m : ℕ) : List Obs :=
  (postRows rows).filter (fun r => decide (monthKey r = (y, m)))

/-- The non-null values of the monthly cell `(y, m)`. -/
def monthCellVals (rows : List Obs) (y m : ℕ) : List ℚ :=
  (monthCellObs rows y m).filterMap (fun r => r.value)

/-- The Stage-1 row of the monthly cell `(y, m)`. -/
def monthCellOf (rows : List Obs) (y m : ℕ) : MonthCell :=
  mkMonthCell ((y, m), monthCellObs rows y m)

/-- The distinct occupied `(YEAR, MONTH)` cells (in or after 1970). -/
def monthKeysYM (rows : List Obs) : List (ℕ × ℕ) :=
  ((postRows rows).map monthKey).dedup

/-! ## Concrete station inputs used by witnesses and counterexamples -/

/-- 21 valid observations in September 1970: the stream passes the gate
(ratio 1) and the cell (1970, 9) passes the completeness filter
(21/30 = 0.7 exactly). -/
def goodRows21 : List Obs :=
  (List.range 21).map (fun i => ⟨⟨1970, 9, i + 1⟩, some 100⟩)

/-- A stream failing the gate: 3 valid of 10 post-cutoff rows. -/
def badRows3of10 : List Obs :=
  (List.range 3).map (fun i => ⟨⟨1980, 1, i + 1⟩, some 5⟩)
    ++ (List.range 7).map (fun i => ⟨⟨1980, 1, i + 4⟩, none⟩)

/-- All three elements read successfully with good data. -/
def inpFull : StationInput :=
  ⟨some goodRows21, some goodRows21, some goodRows21⟩

/-- TMIN and TMAX good; reading PRCP raised (element absent). -/
def inpNoPrcp : StationInput :=
  ⟨some goodRows21, some goodRows21, none⟩

/-- TMAX fails the quality gate. -/
def inpBadTmax : StationInput :=
  ⟨some goodRows21, some badRows3of10, some goodRows21⟩

/-- PRCP fails the quality gate. -/
def inpBadPrcp : StationInput :=
  ⟨some goodRows21, some goodRows21, some badRows3of10⟩

/-- The combined monthly table the pipeline produces for `inpFull`:
one row for September, TMIN/TMAX values divided by 10. -/
def mcTableFull : MonthlyCombinedTable :=
  { header := monthly_select_header,
    rows := [{ month := 9, tmin_p10 := some 10, tmax_p90 := some 10,
               tmin_mn := some 10, tmax_mx := some 10, prcp_sm := some 2100 }] }

/-- Two observations in one daily cell, values 0 and 10: the nearest and
the linear quantile estimators disagree on this cell. -/
def c5rows : List Obs :=
  [⟨⟨1980, 3, 5⟩, some 0⟩, ⟨⟨1980, 3, 5⟩, some 10⟩]

/-- A small stream exercising both daily stages: two years of one calendar
day, a second calendar day, a pre-cutoff row and a null value. -/
def c7rows : List Obs :=
  [⟨⟨1980, 3, 5⟩, some 0⟩, ⟨⟨1981, 3, 5⟩, some 10⟩, ⟨⟨1980, 1, 2⟩, some 4⟩,
   ⟨⟨1960, 1, 1⟩, some 99⟩, ⟨⟨1980, 3, 5⟩, none⟩]

/-- The single output row of `calculate_daily_statistics c5rows`. -/
def c5row : DailyStatRow :=
  ⟨1, 3, 5, some 0, some 10, some 0, some 10, some 10⟩

/-- The first output row of `calculate_daily_statistics c7rows`. -/
def c7row1 : DailyStatRow :=
  ⟨1, 1, 2, some 4, some 4, some 4, some 4, some 4⟩

/-- 21 valid September-1970 rows (cell ratio 21/30 = 0.7, kept) plus 20
valid September-1971 rows (cell ratio 20/30 < 0.7, dropped). -/
def rows2130 : List Obs :=
  goodRows21 ++ (List.range 20).map (fun i => ⟨⟨1971, 9, i + 1⟩, some 50⟩)

/-- A daily statistics frame covering canonical days 1..100 (month 1). -/
def frameA : List DailyStatRow :=
  (List.range 100).map (fun i => ⟨0, 1, i + 1, some 1, some 1, some 1, some 1, some 1⟩)

/-- A daily statistics frame covering canonical days 50..150 (month 1). -/
def frameB : List DailyStatRow :=
  (List.range 101).map (fun i => ⟨0, 1, i + 50, some 2, some 2, some 2, some 2, some 2⟩)

/-- An element that produced an empty daily statistics frame. -/
def frameC : List DailyStatRow := []

/-- The combined daily table of the three frames above. -/
def cTableW : DailyCombinedTable :=
  (combine_daily (some frameA) (some frameB) (some frameC)).getD ⟨[], []⟩

/-- A placeholder combined daily row (default for list indexing). -/
def dRow0 : DailyCombinedRow :=
  ⟨0, none, none, none, none, none, 0, 0⟩

/-! ## Claim theorems -/

set_option maxRecDepth 8000

/-- C4: for every observation stream and cutoff year, the quality gate
returns `completeness_ratio = valid_count / total_count` over rows dated in
or after the cutoff year (and `0` when there are no such rows), and
`is_good = true` exactly when the ratio is at least `7/10`, the boundary
included. -/
theorem check_data_quality_correct (rows : List Obs) (cutoff : ℕ) :
    (postCutoffTotal rows cutoff = 0 → (check_data_quality rows cutoff).2 = 0)
    ∧ (0 < postCutoffTotal rows cutoff →
        (check_data_quality rows cutoff).2
          = (postCutoffValid rows cutoff : ℚ) / (postCutoffTotal rows cutoff : ℚ))
    ∧ ((check_data_quality rows cutoff).1 = true
        ↔ (7 : ℚ)/10 ≤ (check_data_quality rows cutoff).2) := by
  have hval : ((rows.filter (fun r => decide (cutoff ≤ r.date.year))).filter
      (fun r => r.value.isSome)).length = postCutoffValid rows cutoff := by
    rw [postCutoffValid, List.filter_filter]
  refine ⟨?_, ?_, ?_⟩
  · intro h
    simp only [check_data_quality, postCutoffTotal] at h ⊢
    rw [if_neg (by omega)]
  · intro h
    simp only [check_data_quality, postCutoffTotal] at h ⊢
    rw [if_pos h, hval]
  · simp only [check_data_quality, decide_eq_true_iff]

/-- Witness for C4: 7 valid of 10 total gives ratio `7/10` and passes the
gate; 6 of 10 gives `6/10` and fails it. -/
theorem check_data_quality_correct_witness :
    (0 < postCutoffTotal rows7of10 1970
      ∧ (check_data_quality rows7of10 1970).2 = (7 : ℚ)/10
      ∧ (check_data_quality rows7of10 1970).1 = true)
    ∧ ((check_data_quality rows6of10 1970).2 = (6 : ℚ)/10
      ∧ (check_data_quality rows6of10 1970).1 = false) := by
  refine ⟨⟨by decide, by decide, ?_⟩, by decide, ?_⟩
  · exact ((check_data_quality_correct rows7of10 1970).2.2).mpr (by decide)
  · cases hgood : (check_data_quality rows6of10 1970).1
    · rfl
    · exact absurd (((check_data_quality_correct rows6of10 1970).2.2).mp hgood)
        (by decide)

/-- Helper: when some element's gate fails, the station produces nothing
(the `return` at line 217 fires before any output is written). -/
theorem gateFails_process_none (tw : TimeWindow) (inp : StationInput)
    (hg : (gateFails inp.tmin || gateFails inp.tmax || gateFails inp.prcp) = true) :
    process_station_data tw inp = none := by
  unfold process_station_data
  rw [if_pos hg]

/-- Helper: an element with successfully read rows whose gate says `False`
makes `gateFails` fire. -/
theorem gateFails_of_bad (o : Option (List Obs)) (rows : List Obs)
    (heq : o = some rows) (hbad : (check_data_quality rows 1970).1 = false) :
    gateFails o = true := by
  rw [heq]
  simp [gateFails, hbad]

/-- C3: if any element's observation stream was read successfully and fails
the quality gate, `process_station_data` produces no output for the whole
station, for either time window. -/
theorem quality_gate_aborts_station (tw : TimeWindow) (inp : StationInput)
    (h : (∃ rows, inp.tmin = some rows ∧ (check_data_quality rows 1970).1 = false)
      ∨ (∃ rows, inp.tmax = some rows ∧ (check_data_quality rows 1970).1 = false)
      ∨ (∃ rows, inp.prcp = some rows ∧ (check_data_quality rows 1970).1 = false)) :
    process_station_data tw inp = none := by
  apply gateFails_process_none
  rcases h with ⟨rows, heq, hbad⟩ | ⟨rows, heq, hbad⟩ | ⟨rows, heq, hbad⟩ <;>
    simp [gateFails_of_bad _ rows heq hbad]

/-- Witness for C3: a station whose TMAX stream has 3 valid of 10 rows is
aborted entirely. -/
theorem quality_gate_aborts_station_witness :
    inpBadTmax.tmax = some badRows3of10
    ∧ (check_data_quality badRows3of10 1970).1 = false
    ∧ process_station_data .monthly inpBadTmax = none := by
  refine ⟨rfl, by decide, ?_⟩
  exact quality_gate_aborts_station .monthly inpBadTmax
    (Or.inr (Or.inl ⟨badRows3of10, rfl, by decide⟩))

/-- C9: the quality-gate admission check applies before the branch on
`time_window`, so a daily run is aborted by a failing gate exactly as a
monthly run is. -/
theorem quality_gate_uniform_across_windows (inp : StationInput)
    (h : (∃ rows, inp.tmin = some rows ∧ (check_data_quality rows 1970).1 = false)
      ∨ (∃ rows, inp.tmax = some rows ∧ (check_data_quality rows 1970).1 = false)
      ∨ (∃ rows, inp.prcp = some rows ∧ (check_data_quality rows 1970).1 = false)) :
    process_station_data .daily inp = none
      ∧ process_station_data .monthly inp = none := by
  have hg : (gateFails inp.tmin || gateFails inp.tmax || gateFails inp.prcp) = true := by
    rcases h with ⟨rows, heq, hbad⟩ | ⟨rows, heq, hbad⟩ | ⟨rows, heq, hbad⟩ <;>
      simp [gateFails_of_bad _ rows heq hbad]
  exact ⟨gateFails_process_none .daily inp hg, gateFails_process_none .monthly inp hg⟩

/-- Witness for C9: a station whose PRCP stream fails the gate produces no
output under either time window. -/
theorem quality_gate_uniform_across_windows_witness :
    inpBadPrcp.prcp = some badRows3of10
    ∧ (check_data_quality badRows3of10 1970).1 = false
    ∧ process_station_data .daily inpBadPrcp = none
    ∧ process_station_data .monthly inpBadPrcp = none := by
  refine ⟨rfl, by decide, ?_⟩
  have h := quality_gate_uniform_across_windows inpBadPrcp
    (Or.inr (Or.inr ⟨badRows3of10, rfl, by decide⟩))
  exact ⟨h.1, h.2⟩

/-- Helper: every table `combine_monthly` produces carries the header of
the final monthly `select`. -/
theorem combine_monthly_header (a b c : Option (List MonthlyClimRow))
    (t : MonthlyCombinedTable) (h : combine_monthly a b c = some t) :
    t.header = monthly_select_header := by
  cases a with
  | none => simp [combine_monthly] at h
  | some fa =>
    cases b with
    | none => simp [combine_monthly] at h
    | some fb =>
      cases c with
      | none => simp [combine_monthly] at h
      | some fc =>
        simp only [combine_monthly, Option.some.injEq] at h
        rw [← h]

/-- C1 (amended): every combined monthly table the pipeline writes has 6
columns: `MONTH` plus the same fixed statistic subset as the daily table
(`TMIN_P10`, `TMAX_P90`, `TMIN_MIN`, `TMAX_MAX`, `PRCP_SUM`), not the full
five statistics of each of the three elements. -/
theorem monthly_combined_columns (inp : StationInput) (t : MonthlyCombinedTable)
    (h : process_station_data .monthly inp = some (.monthlyOut t)) :
    t.header = ["MONTH", "TMIN_P10", "TMAX_P90", "TMIN_MIN", "TMAX_MAX", "PRCP_SUM"]
    ∧ t.header.length = 6 := by
  rcases hc : combine_monthly
      (inp.tmin.map (fun rows => (calculate_monthly_statistics (convertTemps rows)).1))
      (inp.tmax.map (fun rows => (calculate_monthly_statistics (convertTemps rows)).1))
      (inp.prcp.map (fun rows => (calculate_monthly_statistics rows).1)) with _ | t2
  · simp only [process_station_data, hc] at h
    split at h <;> simp at h
  · simp only [process_station_data, hc] at h
    split at h
    · exact absurd h (by simp)
    · split at h
      · exact absurd h (by simp)
      · simp only [Option.some.injEq, StationOutput.monthlyOut.injEq] at h
        subst h
        have hh := combine_monthly_header _ _ _ _ hc
        rw [hh]
        exact ⟨rfl, rfl⟩

/-- Counterexample for C1: a monthly run in which all three elements
produce (non-empty) climatology data, whose combined monthly table has 6
columns, not 16. -/
theorem monthly_combined_not_16_columns :
    ((calculate_monthly_statistics (convertTemps goodRows21)).1).isEmpty = false
    ∧ ((calculate_monthly_statistics goodRows21).1).isEmpty = false
    ∧ process_station_data .monthly inpFull = some (.monthlyOut mcTableFull)
    ∧ mcTableFull.header.length ≠ 16 := by
  exact ⟨rfl, rfl, rfl, by decide⟩

/-- Witness for C1 (amended): the combined monthly table of `inpFull` has
exactly the six columns of the final `select`. -/
theorem monthly_combined_columns_witness :
    process_station_data .monthly inpFull = some (.monthlyOut mcTableFull)
    ∧ (mcTableFull.header
        = ["MONTH", "TMIN_P10", "TMAX_P90", "TMIN_MIN", "TMAX_MAX", "PRCP_SUM"]
      ∧ mcTableFull.header.length = 6) :=
  ⟨rfl, monthly_combined_columns inpFull mcTableFull rfl⟩

/-- C2 (code behaviour at the failing input): TMIN and TMAX both produce
non-empty climatology tables, PRCP is absent, yet the station produces no
combined output at all — the final `select` names `PRCP_SUM`, which does
not exist, raising `ColumnNotFoundError` — contradicting the claim that
the combiner succeeds with null-valued PRCP columns. -/
theorem combine_missing_element_no_output :
    ((calculate_monthly_statistics (convertTemps goodRows21)).1).isEmpty = false
    ∧ inpNoPrcp.prcp = none
    ∧ process_station_data .monthly inpNoPrcp = none :=
  ⟨rfl, rfl, rfl⟩

/-! ## Generic list lemmas -/

theorem withIdx_length {α : Type} (n : ℕ) (l : List α) :
    (withIdx n l).length = l.length := by
  induction l generalizing n with
  | nil => rfl
  | cons a t ih => simp [withIdx, ih]

theorem withIdx_map_fst {α : Type} (n : ℕ) (l : List α) :
    (withIdx n l).map Prod.fst = List.range' n l.length := by
  induction l generalizing n with
  | nil => rfl
  | cons a t ih => simp [withIdx, List.range'_succ, ih]

theorem withIdx_map_snd {α : Type} (n : ℕ) (l : List α) :
    (withIdx n l).map Prod.snd = l := by
  induction l generalizing n with
  | nil => rfl
  | cons a t ih => simp [withIdx, ih]

theorem mem_withIdx_snd {α : Type} {p : ℕ × α} {n : ℕ} {l : List α}
    (h : p ∈ withIdx n l) : p.2 ∈ l := by
  have : p.2 ∈ (withIdx n l).map Prod.snd := List.mem_map_of_mem Prod.snd h
  rwa [withIdx_map_snd] at this

theorem dedup_filter {α : Type} [DecidableEq α] (p : α → Bool) (l : List α) :
    (l.filter p).dedup = l.dedup.filter p := by
  induction l with
  | nil => rfl
  | cons a t ih =>
    by_cases ha : a ∈ t
    · rw [List.dedup_cons_of_mem ha]
      cases hpa : p a
      · rw [List.filter_cons_of_neg (by simp [hpa]), ih]
      · rw [List.filter_cons_of_pos (by simp [hpa]),
          List.dedup_cons_of_mem (List.mem_filter.mpr ⟨ha, hpa⟩), ih]
    · rw [List.dedup_cons_of_not_mem ha]
      cases hpa : p a
      · rw [List.filter_cons_of_neg (by simp [hpa]),
          List.filter_cons_of_neg (by simp [hpa]), ih]
      · rw [List.filter_cons_of_pos (by simp [hpa]),
          List.filter_cons_of_pos (by simp [hpa]),
          List.dedup_cons_of_not_mem (fun hmem => ha (List.mem_of_mem_filter hmem)),
          ih]

theorem dedup_map_dedup {α β : Type} [DecidableEq α] [DecidableEq β]
    (f : α → β) (l : List α) :
    ((l.dedup).map f).dedup = (l.map f).dedup := by
  induction l with
  | nil => rfl
  | cons a t ih =>
    by_cases ha : a ∈ t
    · rw [List.dedup_cons_of_mem ha, List.map_cons,
        List.dedup_cons_of_mem (List.mem_map_of_mem f ha), ih]
    · rw [List.dedup_cons_of_not_mem ha, List.map_cons, List.map_cons]
      by_cases hfa : f a ∈ t.map f
      · have hfa2 : f a ∈ t.dedup.map f := by
          obtain ⟨x, hx, hfx⟩ := List.mem_map.mp hfa
          exact List.mem_map.mpr ⟨x, List.mem_dedup.mpr hx, hfx⟩
        rw [List.dedup_cons_of_mem hfa2, List.dedup_cons_of_mem hfa, ih]
      · have hfa2 : f a ∉ t.dedup.map f := by
          intro hmem
          obtain ⟨x, hx, hfx⟩ := List.mem_map.mp hmem
          exact hfa (List.mem_map.mpr ⟨x, List.mem_dedup.mp hx, hfx⟩)
        rw [List.dedup_cons_of_not_mem hfa2, List.dedup_cons_of_not_mem hfa, ih]

theorem map_headD_const {α : Type} (l : List α) (f : α → ℕ) (d : ℕ)
    (hne : l ≠ []) (hall : ∀ x ∈ l, f x = d) : (l.map f).headD 0 = d := by
  cases l with
  | nil => exact absurd rfl hne
  | cons a t => exact hall a (List.mem_cons_self a t)

theorem pairwise_keyLt_of_le {l : List (ℕ × ℕ)}
    (hle : List.Pairwise keyLe l) (hnd : l.Nodup) : List.Pairwise keyLt l := by
  refine (hle.and hnd).imp ?_
  rintro a b ⟨h1, h2⟩
  rcases h1 with h | ⟨he, h⟩
  · exact Or.inl h
  · rcases Nat.lt_or_ge a.2 b.2 with hlt | hge
    · exact Or.inr ⟨he, hlt⟩
    · exact absurd (Prod.ext he (Nat.le_antisymm h hge)) h2

theorem pairwise_nat_lt_of_le {l : List ℕ}
    (hle : List.Pairwise (fun a b : ℕ => a ≤ b) l) (hnd : l.Nodup) :
    List.Pairwise (fun a b : ℕ => a < b) l :=
  (hle.and hnd).imp (fun h => Nat.lt_of_le_of_ne h.1 h.2)

/-! ## Characterization of the daily aggregator -/

theorem dailyStage1_char (rows : List Obs) :
    dailyStage1 rows = ((postRows rows).map dailyKey).dedup.map
      (fun k => dailyCellRow rows k.1 k.2.1 k.2.2) := by
  unfold dailyStage1 groupBy
  rw [List.map_map]
  rfl

theorem dailyKeys_filter (rows : List Obs) (k : ℕ × ℕ) :
    (((postRows rows).map dailyKey).dedup).filter
        (fun kk => decide ((kk.2.1, kk.2.2) = k))
      = (dailyYears rows k.1 k.2).map (fun y => (y, k.1, k.2)) := by
  rw [← dedup_filter]
  have h1 : ((postRows rows).map dailyKey).filter
        (fun kk => decide ((kk.2.1, kk.2.2) = k))
      = ((postRows rows).filter (fun r => decide (obsMD r = k))).map dailyKey := by
    rw [List.filter_map]
    exact congrArg _ (List.filter_congr (fun r _ => rfl))
  rw [h1]
  have h2 : ((postRows rows).filter (fun r => decide (obsMD r = k))).map dailyKey
      = (((postRows rows).filter (fun r => decide (obsMD r = k))).map
          (fun r => r.date.year)).map (fun y => (y, k.1, k.2)) := by
    rw [List.map_map]
    refine List.map_congr_left ?_
    intro r hr
    have hmd : obsMD r = k := of_decide_eq_true (List.mem_filter.mp hr).2
    have h3 : r.date.month = k.1 := by rw [← hmd]; rfl
    have h4 : r.date.day = k.2 := by rw [← hmd]; rfl
    simp [dailyKey, h3, h4]
  rw [h2, List.dedup_map_of_injective
    (fun y1 y2 hy => by simpa using congrArg Prod.fst hy)]
  rfl

theorem dailyStage1_filter_md (rows : List Obs) (k : ℕ × ℕ) :
    (dailyStage1 rows).filter (fun a => decide (annualMD a = k))
      = (dailyYears rows k.1 k.2).map (fun y => dailyCellRow rows y k.1 k.2) := by
  rw [dailyStage1_char, List.filter_map]
  have h := congrArg
    (List.map (fun kk : ℕ × ℕ × ℕ => dailyCellRow rows kk.1 kk.2.1 kk.2.2))
    (dailyKeys_filter rows k)
  refine h.trans ?_
  rw [List.map_map]
  rfl

theorem dailyStage1_keys (rows : List Obs) :
    ((dailyStage1 rows).map annualMD).dedup = dailyObservedKeys rows := by
  rw [dailyStage1_char, List.map_map]
  refine Eq.trans (dedup_map_dedup (fun kk : ℕ × ℕ × ℕ => (kk.2.1, kk.2.2))
    ((postRows rows).map dailyKey)) ?_
  rw [List.map_map]
  rfl

theorem dailyStage2_char (rows : List Obs) :
    dailyStage2 (dailyStage1 rows)
      = (dailyObservedKeys rows).map (fun k =>
          mkDailyClim (k, (dailyYears rows k.1 k.2).map
            (fun y => dailyCellRow rows y k.1 k.2))) := by
  unfold dailyStage2 groupBy
  rw [List.map_map, dailyStage1_keys]
  refine List.map_congr_left ?_
  intro k _
  show mkDailyClim (k, (dailyStage1 rows).filter
    (fun a => decide (annualMD a = k))) = _
  rw [dailyStage1_filter_md]

theorem withIdx_map_key (L : List DailyClimRow) :
    (withIdx 1 L).map (fun ir => statMD (mkDailyStat ir)) = L.map climMD := by
  calc (withIdx 1 L).map (fun ir => statMD (mkDailyStat ir))
      = ((withIdx 1 L).map Prod.snd).map climMD := by
        rw [List.map_map]
        exact List.map_congr_left (fun ir _ => rfl)
    _ = L.map climMD := by rw [withIdx_map_snd]

theorem dailyStage2_map_climMD (rows : List Obs) :
    (dailyStage2 (dailyStage1 rows)).map climMD = dailyObservedKeys rows := by
  rw [dailyStage2_char, List.map_map]
  exact (List.map_congr_left (fun k _ => rfl)).trans (List.map_id _)

theorem daily_out_keys (rows : List Obs) :
    (calculate_daily_statistics rows).map statMD
      = List.insertionSort keyLe (dailyObservedKeys rows) := by
  unfold calculate_daily_statistics
  rw [List.map_map]
  refine Eq.trans
    (withIdx_map_key (List.insertionSort dailyRowLe (dailyStage2 (dailyStage1 rows)))) ?_
  rw [List.map_insertionSort (r := dailyRowLe) (s := keyLe) climMD _
    (fun a _ b _ => Iff.rfl), dailyStage2_map_climMD]

theorem daily_out_days (rows : List Obs) :
    (calculate_daily_statistics rows).map (fun r => r.day)
      = List.range' 1 (calculate_daily_statistics rows).length := by
  unfold calculate_daily_statistics
  rw [List.map_map, List.length_map, withIdx_length]
  exact Eq.trans rfl (withIdx_map_fst 1 _)

theorem daily_out_mem (rows : List Obs) (o : DailyStatRow)
    (ho : o ∈ calculate_daily_statistics rows) :
    o.p10 = meanOpt ((dailyYears rows o.month o.dom).map
        (fun y => quantileNearest (1/10) (dailyCellVals rows y o.month o.dom)))
    ∧ o.p90 = meanOpt ((dailyYears rows o.month o.dom).map
        (fun y => quantileNearest (9/10) (dailyCellVals rows y o.month o.dom)))
    ∧ o.mn = minOptQ ((dailyYears rows o.month o.dom).map
        (fun y => (dailyCellVals rows y o.month o.dom).min?))
    ∧ o.mx = maxOptQ ((dailyYears rows o.month o.dom).map
        (fun y => (dailyCellVals rows y o.month o.dom).max?))
    ∧ o.sm = meanQ ((dailyYears rows o.month o.dom).map
        (fun y => (dailyCellVals rows y o.month o.dom).sum)) := by
  unfold calculate_daily_statistics at ho
  obtain ⟨ir, hir, rfl⟩ := List.mem_map.mp ho
  have hc : ir.2 ∈ dailyStage2 (dailyStage1 rows) :=
    (List.mem_insertionSort dailyRowLe).mp (mem_withIdx_snd hir)
  rw [dailyStage2_char] at hc
  obtain ⟨k, _, hceq⟩ := List.mem_map.mp hc
  obtain ⟨i, c⟩ := ir
  have hc2 : c = mkDailyClim (k, List.map (fun y => dailyCellRow rows y k.1 k.2)
      (dailyYears rows k.1 k.2)) := hceq.symm
  subst hc2
  simp only [mkDailyStat, mkDailyClim, List.map_map]
  exact ⟨rfl, rfl, rfl, rfl, rfl⟩

/-! ## Characterization of the monthly aggregator -/

theorem monthlyStage1_char (rows : List Obs) :
    monthlyStage1 rows
      = (monthKeysYM rows).map (fun k => monthCellOf rows k.1 k.2) := by
  unfold monthlyStage1 groupBy
  rw [List.map_map]
  rfl

theorem monthCellOf_daysIM (rows : List Obs) (y m : ℕ)
    (h : (y, m) ∈ (postRows rows).map monthKey) :
    (monthCellOf rows y m).daysIM = daysInMonth y m := by
  obtain ⟨r, hr, hk⟩ := List.mem_map.mp h
  have hobs : r ∈ monthCellObs rows y m :=
    List.mem_filter.mpr ⟨hr, decide_eq_true hk⟩
  refine map_headD_const (monthCellObs rows y m)
    (fun r => daysInMonth r.date.year r.date.month) (daysInMonth y m) ?_ ?_
  · intro hnil
    rw [hnil] at hobs
    exact (List.not_mem_nil r) hobs
  · intro x hx
    have hkx : monthKey x = (y, m) := of_decide_eq_true (List.mem_filter.mp hx).2
    have h1 : x.date.year = y := congrArg Prod.fst hkx
    have h2 : x.date.month = m := congrArg Prod.snd hkx
    show daysInMonth x.date.year x.date.month = daysInMonth y m
    rw [h1, h2]

theorem monthlyHistory_mem_iff (rows : List Obs) (h : HistoryRow) :
    h ∈ monthlyHistory rows
      ↔ ∃ k ∈ monthKeysYM rows,
          cellKept (monthCellOf rows k.1 k.2) = true
          ∧ h = toHistoryRow (monthCellOf rows k.1 k.2) := by
  unfold monthlyHistory
  rw [List.mem_map]
  constructor
  · rintro ⟨c, hc, rfl⟩
    have hc2 : c ∈ (monthlyStage1 rows).filter cellKept :=
      (List.mem_insertionSort _).mp hc
    obtain ⟨hc3, hkept⟩ := List.mem_filter.mp hc2
    rw [monthlyStage1_char] at hc3
    obtain ⟨k, hk, rfl⟩ := List.mem_map.mp hc3
    exact ⟨k, hk, hkept, rfl⟩
  · rintro ⟨k, hk, hkept, rfl⟩
    refine ⟨monthCellOf rows k.1 k.2, ?_, rfl⟩
    refine (List.mem_insertionSort _).mpr ?_
    refine List.mem_filter.mpr ⟨?_, hkept⟩
    rw [monthlyStage1_char]
    exact List.mem_map.mpr ⟨k, hk, rfl⟩

theorem monthlyHistory_mem_stats (rows : List Obs) (h : HistoryRow)
    (hh : h ∈ monthlyHistory rows) :
    h.p10 = quantileNearest (1/10) (monthCellVals rows h.year h.month)
    ∧ h.p90 = quantileNearest (9/10) (monthCellVals rows h.year h.month)
    ∧ h.mn = (monthCellVals rows h.year h.month).min?
    ∧ h.mx = (monthCellVals rows h.year h.month).max?
    ∧ h.sm = (monthCellVals rows h.year h.month).sum
    ∧ h.entryCount = (monthCellObs rows h.year h.month).length := by
  obtain ⟨k, _, _, rfl⟩ := (monthlyHistory_mem_iff rows h).mp hh
  exact ⟨rfl, rfl, rfl, rfl, rfl, rfl⟩

/-- C7: the daily aggregator computes its output in two stages — per-cell
statistics by `(year, month, day)`, then across-years aggregation by
`(month, day)` taking the mean of the per-year p10/p90/sum and the true
extrema of the per-year min/max — sorted ascending by `(month, day)` with a
sequential `DAY` index 1..N. -/
theorem calculate_daily_statistics_spec (rows : List Obs) :
    (calculate_daily_statistics rows).map statMD
        = List.insertionSort keyLe (dailyObservedKeys rows)
    ∧ List.Pairwise (fun a b => keyLt (statMD a) (statMD b))
        (calculate_daily_statistics rows)
    ∧ (calculate_daily_statistics rows).map (fun r => r.day)
        = List.range' 1 (calculate_daily_statistics rows).length
    ∧ ∀ o ∈ calculate_daily_statistics rows,
        o.p10 = meanOpt ((dailyYears rows o.month o.dom).map
            (fun y => quantileNearest (1/10) (dailyCellVals rows y o.month o.dom)))
        ∧ o.p90 = meanOpt ((dailyYears rows o.month o.dom).map
            (fun y => quantileNearest (9/10) (dailyCellVals rows y o.month o.dom)))
        ∧ o.mn = minOptQ ((dailyYears rows o.month o.dom).map
            (fun y => (dailyCellVals rows y o.month o.dom).min?))
        ∧ o.mx = maxOptQ ((dailyYears rows o.month o.dom).map
            (fun y => (dailyCellVals rows y o.month o.dom).max?))
        ∧ o.sm = meanQ ((dailyYears rows o.month o.dom).map
            (fun y => (dailyCellVals rows y o.month o.dom).sum)) := by
  refine ⟨daily_out_keys rows, ?_, daily_out_days rows,
    fun o ho => daily_out_mem rows o ho⟩
  have h1 : List.Pairwise keyLe (List.insertionSort keyLe (dailyObservedKeys rows)) :=
    List.sorted_insertionSort keyLe _
  have h2 : (List.insertionSort keyLe (dailyObservedKeys rows)).Nodup :=
    ((List.perm_insertionSort keyLe (dailyObservedKeys rows)).nodup_iff).mpr
      (List.nodup_dedup _)
  have h3 := pairwise_keyLt_of_le h1 h2
  rw [← daily_out_keys rows] at h3
  exact (List.pairwise_map).mp h3

/-- Witness for C7: on a small concrete stream, the key list is the sorted
distinct calendar days and the first row's statistics match the per-cell
formulas. -/
theorem calculate_daily_statistics_spec_witness :
    c7row1 ∈ calculate_daily_statistics c7rows
    ∧ (calculate_daily_statistics c7rows).map statMD
        = List.insertionSort keyLe (dailyObservedKeys c7rows)
    ∧ (calculate_daily_statistics c7rows).map (fun r => r.day)
        = List.range' 1 (calculate_daily_statistics c7rows).length
    ∧ c7row1.p10 = meanOpt ((dailyYears c7rows c7row1.month c7row1.dom).map
        (fun y => quantileNearest (1/10) (dailyCellVals c7rows y c7row1.month c7row1.dom))) := by
  have h := calculate_daily_statistics_spec c7rows
  exact ⟨by decide, h.1, h.2.2.1, (h.2.2.2 c7row1 (by decide)).1⟩

/-- C5 (amended): the per-cell P10/P90 statistics of both aggregators are
computed with polars' default `"nearest"` quantile estimator (the source
passes no `interpolation` argument), applied within each annual cell before
the across-years mean (daily) or directly per cell (monthly history). -/
theorem percentiles_use_nearest (rows : List Obs) :
    (∀ o ∈ calculate_daily_statistics rows,
        o.p10 = meanOpt ((dailyYears rows o.month o.dom).map
            (fun y => quantileNearest (1/10) (dailyCellVals rows y o.month o.dom)))
        ∧ o.p90 = meanOpt ((dailyYears rows o.month o.dom).map
            (fun y => quantileNearest (9/10) (dailyCellVals rows y o.month o.dom))))
    ∧ (∀ h ∈ (calculate_monthly_statistics rows).2,
        h.p10 = quantileNearest (1/10) (monthCellVals rows h.year h.month)
        ∧ h.p90 = quantileNearest (9/10) (monthCellVals rows h.year h.month)) :=
  ⟨fun o ho => ⟨(daily_out_mem rows o ho).1, (daily_out_mem rows o ho).2.1⟩,
   fun h hh => ⟨(monthlyHistory_mem_stats rows h hh).1,
     (monthlyHistory_mem_stats rows h hh).2.1⟩⟩

/-- Counterexample for C5: on a cell with values 0 and 10, the pipeline's
P10 is 0 (nearest estimator), while the linear-interpolation estimator the
claim prescribes yields 1. -/
theorem daily_p10_not_linear :
    (calculate_daily_statistics c5rows).map (fun r => r.p10) = [some 0]
    ∧ meanOpt ((dailyYears c5rows 3 5).map
        (fun y => quantileLinearSpec (1/10) (dailyCellVals c5rows y 3 5))) = some 1
    ∧ some (0 : ℚ) ≠ some 1 := by
  refine ⟨rfl, rfl, by decide⟩

/-- Witness for C5 (amended): on the same cell, the first daily row's P10
is the across-years mean of the nearest-estimator per-cell quantiles. -/
theorem percentiles_use_nearest_witness :
    c5row ∈ calculate_daily_statistics c5rows
    ∧ c5row.p10 = meanOpt ((dailyYears c5rows c5row.month c5row.dom).map
        (fun y => quantileNearest (1/10) (dailyCellVals c5rows y c5row.month c5row.dom))) := by
  refine ⟨by decide, ((percentiles_use_nearest c5rows).1 c5row (by decide)).1⟩

theorem monthlyClim_mem (rows : List Obs) (c : MonthlyClimRow)
    (hc : c ∈ (calculate_monthly_statistics rows).1) :
    c.p10 = meanOpt (((monthlyHistory rows).filter
        (fun h => decide (h.month = c.month))).map (fun h => h.p10))
    ∧ c.p90 = meanOpt (((monthlyHistory rows).filter
        (fun h => decide (h.month = c.month))).map (fun h => h.p90))
    ∧ c.mn = minOptQ (((monthlyHistory rows).filter
        (fun h => decide (h.month = c.month))).map (fun h => h.mn))
    ∧ c.mx = maxOptQ (((monthlyHistory rows).filter
        (fun h => decide (h.month = c.month))).map (fun h => h.mx))
    ∧ c.sm = meanQ (((monthlyHistory rows).filter
        (fun h => decide (h.month = c.month))).map (fun h => h.sm))
    ∧ c.month ∈ (monthlyHistory rows).map histMonth := by
  have hc2 := (List.mem_insertionSort _).mp hc
  obtain ⟨kg, hkg, rfl⟩ := List.mem_map.mp hc2
  unfold groupBy at hkg
  obtain ⟨k, hk, rfl⟩ := List.mem_map.mp hkg
  exact ⟨rfl, rfl, rfl, rfl, rfl, List.mem_dedup.mp hk⟩

/-- C6: a `(year, month)` cell appears in the monthly history table exactly
when it is occupied and its `valid_count / days_in_month` ratio is at least
`7/10` (boundary included), and each month's climatology row aggregates
exactly that month's history rows — so a cell contributes to the
climatology mean exactly when it is retained. -/
theorem monthly_cell_completeness (rows : List Obs) (y m : ℕ) :
    ((∃ h ∈ (calculate_monthly_statistics rows).2, h.year = y ∧ h.month = m)
      ↔ ((y, m) ∈ (postRows rows).map monthKey
          ∧ (7 : ℚ)/10 ≤ ((monthCellVals rows y m).length : ℚ)
              / (daysInMonth y m : ℚ)))
    ∧ ∀ c ∈ (calculate_monthly_statistics rows).1,
        c.p10 = meanOpt ((((calculate_monthly_statistics rows).2).filter
            (fun h => decide (h.month = c.month))).map (fun h => h.p10))
        ∧ c.p90 = meanOpt ((((calculate_monthly_statistics rows).2).filter
            (fun h => decide (h.month = c.month))).map (fun h => h.p90))
        ∧ c.mn = minOptQ ((((calculate_monthly_statistics rows).2).filter
            (fun h => decide (h.month = c.month))).map (fun h => h.mn))
        ∧ c.mx = maxOptQ ((((calculate_monthly_statistics rows).2).filter
            (fun h => decide (h.month = c.month))).map (fun h => h.mx))
        ∧ c.sm = meanQ ((((calculate_monthly_statistics rows).2).filter
            (fun h => decide (h.month = c.month))).map (fun h => h.sm)) := by
  constructor
  · constructor
    · rintro ⟨h, hh, hy, hm⟩
      obtain ⟨k, hk, hkept, rfl⟩ := (monthlyHistory_mem_iff rows h).mp hh
      have hk1 : k.1 = y := hy
      have hk2 : k.2 = m := hm
      subst hk1
      subst hk2
      have h2 := of_decide_eq_true hkept
      rw [monthCellOf_daysIM rows k.1 k.2 (List.mem_dedup.mp hk)] at h2
      exact ⟨List.mem_dedup.mp hk, h2⟩
    · rintro ⟨hocc, hrat⟩
      refine ⟨toHistoryRow (monthCellOf rows y m), ?_, rfl, rfl⟩
      refine (monthlyHistory_mem_iff rows _).mpr
        ⟨(y, m), List.mem_dedup.mpr hocc, ?_, rfl⟩
      refine decide_eq_true ?_
      rw [monthCellOf_daysIM rows y m hocc]
      exact hrat
  · intro c hc
    have h := monthlyClim_mem rows c hc
    exact ⟨h.1, h.2.1, h.2.2.1, h.2.2.2.1, h.2.2.2.2.1⟩

/-- Witness for C6: with 21 valid of 30 days in September 1970 (ratio
exactly 0.70) and 20 of 30 in September 1971 (below the bar), only the
1970 cell survives into the history table. -/
theorem monthly_cell_completeness_witness :
    ((calculate_monthly_statistics rows2130).2).map (fun h => (h.year, h.month))
        = [(1970, 9)]
    ∧ (7 : ℚ)/10 ≤ ((monthCellVals rows2130 1970 9).length : ℚ)
        / (daysInMonth 1970 9 : ℚ)
    ∧ ¬ ((7 : ℚ)/10 ≤ ((monthCellVals rows2130 1971 9).length : ℚ)
        / (daysInMonth 1971 9 : ℚ))
    ∧ (calculate_monthly_statistics rows2130).2 ≠ [] := by
  refine ⟨rfl, by decide, by decide, ?_⟩
  obtain ⟨h, hh, _⟩ :=
    (monthly_cell_completeness rows2130 1970 9).1.mpr ⟨by decide, by decide⟩
  intro hnil
  rw [hnil] at hh
  exact (List.not_mem_nil h) hh

theorem monthlyClim_months (rows : List Obs) :
    (((groupBy histMonth (monthlyHistory rows)).map mkMonthlyClim).map
        (fun c => c.month))
      = ((monthlyHistory rows).map histMonth).dedup := by
  unfold groupBy
  rw [List.map_map, List.map_map]
  exact (List.map_congr_left (fun k _ => rfl)).trans (List.map_id _)

theorem monthlyHistory_keys_nodup (rows : List Obs) :
    ((monthlyHistory rows).map (fun h => (h.year, h.month))).Nodup := by
  unfold monthlyHistory
  rw [List.map_map]
  have hperm : List.Perm
      (List.insertionSort monthCellLe ((monthlyStage1 rows).filter cellKept))
      ((monthlyStage1 rows).filter cellKept) :=
    List.perm_insertionSort _ _
  refine ((hperm.map _).nodup_iff).mpr ?_
  have hsub : ((monthlyStage1 rows).filter cellKept).Sublist (monthlyStage1 rows) :=
    List.filter_sublist _
  refine (hsub.map _).nodup ?_
  rw [monthlyStage1_char, List.map_map]
  exact (List.nodup_dedup _).map (fun a b hab => hab)

theorem monthlyHistory_sorted (rows : List Obs) :
    List.Pairwise (fun a b : HistoryRow => keyLt (a.year, a.month) (b.year, b.month))
      (monthlyHistory rows) := by
  have hkeys_le : List.Pairwise keyLe
      ((monthlyHistory rows).map (fun h => (h.year, h.month))) := by
    unfold monthlyHistory
    rw [List.map_map]
    exact (List.pairwise_map).mpr
      ((List.sorted_insertionSort monthCellLe _).imp (fun hab => hab))
  have hlt := pairwise_keyLt_of_le hkeys_le (monthlyHistory_keys_nodup rows)
  exact (List.pairwise_map).mp hlt

/-- C10: the monthly climatology has at most 12 rows — its months are the
distinct months with a retained cell — and is sorted strictly ascending by
`MONTH`; the history table is sorted strictly ascending by
`(YEAR, MONTH)`. -/
theorem monthly_output_shape (rows : List Obs)
    (hm : ∀ r ∈ rows, 1 ≤ r.date.month ∧ r.date.month ≤ 12) :
    ((calculate_monthly_statistics rows).1).length ≤ 12
    ∧ List.Pairwise (fun a b : MonthlyClimRow => a.month < b.month)
        ((calculate_monthly_statistics rows).1)
    ∧ (∀ mo : ℕ, (∃ c ∈ (calculate_monthly_statistics rows).1, c.month = mo)
        ↔ ∃ h ∈ (calculate_monthly_statistics rows).2, h.month = mo)
    ∧ List.Pairwise (fun a b : HistoryRow => keyLt (a.year, a.month) (b.year, b.month))
        ((calculate_monthly_statistics rows).2) := by
  have hpermG : List.Perm ((calculate_monthly_statistics rows).1)
      ((groupBy histMonth (monthlyHistory rows)).map mkMonthlyClim) :=
    List.perm_insertionSort _ _
  have hpermM : List.Perm
      (((calculate_monthly_statistics rows).1).map (fun c => c.month))
      (((monthlyHistory rows).map histMonth).dedup) := by
    have h := hpermG.map (fun c : MonthlyClimRow => c.month)
    rwa [monthlyClim_months rows] at h
  have hnodupM :
      ((((calculate_monthly_statistics rows).1).map (fun c => c.month))).Nodup :=
    (hpermM.nodup_iff).mpr (List.nodup_dedup _)
  have hMle : List.Pairwise (fun a b : ℕ => a ≤ b)
      (((calculate_monthly_statistics rows).1).map (fun c => c.month)) :=
    (List.pairwise_map).mpr
      ((List.sorted_insertionSort climRowLe _).imp (fun hab => hab))
  have hMlt := pairwise_nat_lt_of_le hMle hnodupM
  have hmem : ∀ x ∈ ((calculate_monthly_statistics rows).1).map (fun c => c.month),
      x ∈ Finset.Icc 1 12 := by
    intro x hx
    obtain ⟨c, hc, rfl⟩ := List.mem_map.mp hx
    have h6 := (monthlyClim_mem rows c hc).2.2.2.2.2
    obtain ⟨h, hh, heq⟩ := List.mem_map.mp h6
    rw [← heq]
    obtain ⟨k, hk, _, rfl⟩ := (monthlyHistory_mem_iff rows h).mp hh
    have hk2 : k ∈ (postRows rows).map monthKey := List.mem_dedup.mp hk
    obtain ⟨r, hr, hkr⟩ := List.mem_map.mp hk2
    have hb := hm r (List.mem_of_mem_filter hr)
    have hmo : k.2 = r.date.month := by rw [← hkr]; rfl
    rw [Finset.mem_Icc]
    show 1 ≤ k.2 ∧ k.2 ≤ 12
    rw [hmo]
    exact hb
  have hlen :
      ((((calculate_monthly_statistics rows).1).map (fun c => c.month))).length ≤ 12 := by
    have hcard := List.toFinset_card_of_nodup hnodupM
    have hsub : ((((calculate_monthly_statistics rows).1).map
        (fun c => c.month))).toFinset ⊆ Finset.Icc 1 12 :=
      fun x hx => hmem x (List.mem_toFinset.mp hx)
    have hle := Finset.card_le_card hsub
    rw [hcard] at hle
    simpa [Nat.card_Icc] using hle
  rw [List.length_map] at hlen
  refine ⟨hlen, (List.pairwise_map).mp hMlt, ?_, monthlyHistory_sorted rows⟩
  intro mo
  constructor
  · rintro ⟨c, hc, rfl⟩
    have h6 := (monthlyClim_mem rows c hc).2.2.2.2.2
    obtain ⟨h, hh, heq⟩ := List.mem_map.mp h6
    exact ⟨h, hh, heq⟩
  · rintro ⟨h, hh, rfl⟩
    have hmem2 : h.month ∈ ((monthlyHistory rows).map histMonth).dedup :=
      List.mem_dedup.mpr (List.mem_map_of_mem histMonth hh)
    have hM : h.month ∈ ((calculate_monthly_statistics rows).1).map
        (fun c => c.month) := (hpermM.mem_iff).mpr hmem2
    obtain ⟨c, hc, hcm⟩ := List.mem_map.mp hM
    exact ⟨c, hc, hcm⟩

/-- Witness for C10: on a concrete two-cell stream the climatology has at
most 12 rows and the history is strictly sorted by `(YEAR, MONTH)`. -/
theorem monthly_output_shape_witness :
    ((calculate_monthly_statistics rows2130).1).length ≤ 12
    ∧ List.Pairwise (fun a b : HistoryRow => keyLt (a.year, a.month) (b.year, b.month))
        ((calculate_monthly_statistics rows2130).2) := by
  have h := monthly_output_shape rows2130 (by decide)
  exact ⟨h.1, h.2.2.2⟩

theorem dailyKeyUnion_three (a b c : List DailyStatRow) :
    dailyKeyUnion [a, b, c] = List.insertionSort keyLe
      ((a.map statMD ++ b.map statMD ++ c.map statMD).dedup) := by
  unfold dailyKeyUnion
  congr 2
  simp [List.append_assoc]

theorem findDaily_eq_none (f : List DailyStatRow) (k : ℕ × ℕ)
    (hn : k ∉ f.map statMD) : findDaily f k = none := by
  unfold findDaily
  rw [List.find?_eq_none]
  intro x hx hcon
  apply hn
  have hc2 := of_decide_eq_true hcon
  have hk : statMD x = k := Prod.ext hc2.1 hc2.2
  exact List.mem_map.mpr ⟨x, hx, hk⟩

/-- C8: a combined daily table's key set is the union of the present
elements' key sets, deduplicated and sorted ascending, with `DAY`
reassigned 1..N over the union; a row whose key is absent from one
element's frame carries null values in that element's columns, and no key
of any frame is dropped. -/
theorem combine_daily_union (a b c : List DailyStatRow) (t : DailyCombinedTable)
    (h : combine_daily (some a) (some b) (some c) = some t) :
    t.rows.map (fun r => (r.month, r.dom))
        = List.insertionSort keyLe
            ((a.map statMD ++ b.map statMD ++ c.map statMD).dedup)
    ∧ t.rows.map (fun r => r.day) = List.range' 1 t.rows.length
    ∧ (∀ k : ℕ × ℕ, k ∈ t.rows.map (fun r => (r.month, r.dom))
        ↔ (k ∈ a.map statMD ∨ k ∈ b.map statMD ∨ k ∈ c.map statMD))
    ∧ ∀ r ∈ t.rows,
        ((r.month, r.dom) ∉ a.map statMD → r.tmin_p10 = none ∧ r.tmin_mn = none)
        ∧ ((r.month, r.dom) ∉ b.map statMD → r.tmax_p90 = none ∧ r.tmax_mx = none)
        ∧ ((r.month, r.dom) ∉ c.map statMD → r.prcp_sm = none) := by
  simp only [combine_daily, Option.some.injEq] at h
  subst h
  have hkeys : ((withIdx 1 (dailyKeyUnion [a, b, c])).map
        (fun ik : ℕ × ℕ × ℕ =>
          ({ day := ik.1, month := ik.2.1, dom := ik.2.2,
             tmin_p10 := ((findDaily a ik.2).bind (fun r => r.p10)).map round2,
             tmax_p90 := ((findDaily b ik.2).bind (fun r => r.p90)).map round2,
             tmin_mn := ((findDaily a ik.2).bind (fun r => r.mn)).map round2,
             tmax_mx := ((findDaily b ik.2).bind (fun r => r.mx)).map round2,
             prcp_sm := ((findDaily c ik.2).bind (fun r => r.sm)).map round2 }
            : DailyCombinedRow))).map (fun r => (r.month, r.dom))
      = dailyKeyUnion [a, b, c] := by
    rw [List.map_map]
    exact Eq.trans (List.map_congr_left (fun ik _ => rfl)) (withIdx_map_snd _ _)
  refine ⟨?_, ?_, ?_, ?_⟩
  · exact hkeys.trans (dailyKeyUnion_three a b c)
  · rw [List.map_map, List.length_map, withIdx_length]
    exact Eq.trans rfl (withIdx_map_fst 1 _)
  · intro k
    rw [hkeys]
    unfold dailyKeyUnion
    rw [List.mem_insertionSort, List.mem_dedup]
    simp [or_assoc]
  · intro r hr
    obtain ⟨ik, hik, rfl⟩ := List.mem_map.mp hr
    refine ⟨fun hn => ?_, fun hn => ?_, fun hn => ?_⟩
    · have hfind : findDaily a ik.2 = none := findDaily_eq_none a ik.2 hn
      constructor
      · show ((findDaily a ik.2).bind (fun r => r.p10)).map round2 = none
        rw [hfind]; rfl
      · show ((findDaily a ik.2).bind (fun r => r.mn)).map round2 = none
        rw [hfind]; rfl
    · have hfind : findDaily b ik.2 = none := findDaily_eq_none b ik.2 hn
      constructor
      · show ((findDaily b ik.2).bind (fun r => r.p90)).map round2 = none
        rw [hfind]; rfl
      · show ((findDaily b ik.2).bind (fun r => r.mx)).map round2 = none
        rw [hfind]; rfl
    · have hfind : findDaily c ik.2 = none := findDaily_eq_none c ik.2 hn
      show ((findDaily c ik.2).bind (fun r => r.sm)).map round2 = none
      rw [hfind]; rfl

/-- Witness for C8: element A covers days 1..100, element B covers days
50..150, element C is present but empty — the combined table has exactly
150 rows, with B's columns null on day 1 and A's and C's columns null on
day 120. -/
theorem combine_daily_union_witness :
    combine_daily (some frameA) (some frameB) (some frameC) = some cTableW
    ∧ cTableW.rows.length = 150
    ∧ cTableW.rows.map (fun r => (r.month, r.dom))
        = List.insertionSort keyLe
            ((frameA.map statMD ++ frameB.map statMD ++ frameC.map statMD).dedup)
    ∧ (cTableW.rows.getD 0 dRow0).tmax_p90 = none
    ∧ (cTableW.rows.getD 119 dRow0).tmin_p10 = none
    ∧ (cTableW.rows.getD 119 dRow0).prcp_sm = none := by
  have h1 : combine_daily (some frameA) (some frameB) (some frameC) = some cTableW := rfl
  have h := combine_daily_union frameA frameB frameC cTableW h1
  exact ⟨h1, rfl, h.1, rfl, rfl, rfl⟩
